import Mathlib

/-!
Verification development for the rotation-optimization engine of the
OA_Alpha repository (bounding-box minimization for 3D meshes).

Shallow embedding conventions:

* Angles are represented in exact degree arithmetic over the rationals.
  The Python code stores Euler angles in radians and converts through the
  linear bijections math.radians and math.degrees; working in degrees is
  the image of the code under that bijection and keeps every quantity a
  rational number (the grid generators and presets are degree data in the
  code as well).
* Machine floats are modelled as exact rationals; volumes are rationals.
* The geometry provider (a live Blender object: apply a rotation, read the
  axis-aligned bounding box back) is an external collaborator of the core,
  so the pipeline is parameterized by a pure function
  measure : Vec3 -> Rat giving the AABB volume observed at an applied
  Euler triple, exactly as section 5 of the specification describes.
* Euler/matrix conversion lives in the external mathutils library, so
  rotation composition (matrix product, then conversion back to XYZ Euler
  form) is likewise a parameter compose : Vec3 -> Vec3 -> Vec3.
* Python int() truncates toward zero: modelled by pyInt via Int.tdiv.
* Python range(a, b, s) for s > 0 is the list a, a+s, ... of length
  max 0 (ceil ((b-a)/s)): modelled in closed form by pyRange.
-/

/-- Euler triple (X, Y, Z) in degrees, or a 3D point, over the rationals. -/
abbrev Vec3 : Type := ℚ × ℚ × ℚ

/-- Integer Euler triple, as produced by the grid generators (Python ints). -/
abbrev IVec3 : Type := ℤ × ℤ × ℤ

/-- Cast an integer triple from a generator to a rational Euler triple. -/
def castVec (t : IVec3) : Vec3 := ((t.1 : ℚ), (t.2.1 : ℚ), (t.2.2 : ℚ))

/-- Python int() on a rational: truncation toward zero. -/
def pyInt (q : ℚ) : ℤ := q.num.tdiv (q.den : ℤ)

/-- Python range(a, b, s) for positive step s, in closed form: the list of
a + s*m for m below max 0 (ceil ((b-a)/s)). -/
def pyRange (a b s : ℤ) : List ℤ :=
  (List.range ((b - a + s - 1).fdiv s).toNat).map (fun m : ℕ => a + s * (m : ℤ))

/-- Triple nested grid loop shared by the medium and fine generators of both
implementations: x outermost, y middle, z innermost, each axis running over
range(int(c - radius), int(c + radius + 1), step). -/
def grid3 (c : Vec3) (radius step : ℤ) : List IVec3 :=
  (pyRange (pyInt (c.1 - radius)) (pyInt (c.1 + radius + 1)) step).flatMap fun x =>
    (pyRange (pyInt (c.2.1 - radius)) (pyInt (c.2.1 + radius + 1)) step).flatMap fun y =>
      (pyRange (pyInt (c.2.2 - radius)) (pyInt (c.2.2 + radius + 1)) step).map fun z =>
        (x, y, z)

/-- Single-axis Z sweep shared by the z_only branches: triples (0, 0, z) for
z in range(int(cz - radius), int(cz + radius + 1), step). -/
def gridZ (cz : ℚ) (radius step : ℤ) : List IVec3 :=
  (pyRange (pyInt (cz - radius)) (pyInt (cz + radius + 1)) step).map fun z => (0, 0, z)

/-- RotationGenerator.generate_coarse from src/src/optimization/rotation_generator.py:
z_only gives 24 Z-axis steps of 15 degrees; otherwise the nested product of the
per-axis angle list with the membership-test deduplication of the source. -/
def generateCoarse (zOnly fastMode : Bool) : List IVec3 :=
  if zOnly then
    (pyRange 0 360 15).map (fun z => (0, 0, z))
  else
    let angles : List ℤ := if fastMode then [0, 45, 90, 180] else [0, 45, -45, 90, -90, 180]
    (angles.flatMap fun x => angles.flatMap fun y => angles.map fun z => (x, y, z)).foldl
      (fun acc t => if t ∈ acc then acc else acc ++ [t]) []

/-- RotationGenerator.generate_medium: the z_only branch sweeps Z with the
radius and step arguments (defaults 45 and 15 at the call site); otherwise
fast mode overrides them to 30 and 30 and the triple grid is produced. -/
def generateMedium (zOnly fastMode : Bool) (center : Vec3) (radius step : ℤ) : List IVec3 :=
  if zOnly then gridZ center.2.2 radius step
  else if fastMode then grid3 center 30 30
  else grid3 center radius step

/-- RotationGenerator.generate_fine: same shape as generate_medium with
defaults 15 and 5, fast mode overriding to 15 and 15. -/
def generateFine (zOnly fastMode : Bool) (center : Vec3) (radius step : ℤ) : List IVec3 :=
  if zOnly then gridZ center.2.2 radius step
  else if fastMode then grid3 center 15 15
  else grid3 center radius step

/-- RotationOptimizer._generate_coarse_rotations from src/rotation_optimizer.py
(the legacy monolithic implementation); the body is identical to the modular
generate_coarse. -/
def legacyGenerateCoarse (zOnly fastMode : Bool) : List IVec3 :=
  if zOnly then
    (pyRange 0 360 15).map (fun z => (0, 0, z))
  else
    let angles : List ℤ := if fastMode then [0, 45, 90, 180] else [0, 45, -45, 90, -90, 180]
    (angles.flatMap fun x => angles.flatMap fun y => angles.map fun z => (x, y, z)).foldl
      (fun acc t => if t ∈ acc then acc else acc ++ [t]) []

/-- RotationOptimizer._generate_medium_rotations from src/rotation_optimizer.py:
the z_only branch hard-codes step 15 and radius 30; otherwise fast mode gives
30 and 30, non-fast gives step 15 and radius 45. -/
def legacyGenerateMedium (zOnly fastMode : Bool) (center : Vec3) : List IVec3 :=
  if zOnly then gridZ center.2.2 30 15
  else if fastMode then grid3 center 30 30
  else grid3 center 45 15

/-- RotationOptimizer._generate_fine_rotations from src/rotation_optimizer.py:
the z_only branch hard-codes step 5 and radius 15; otherwise fast mode gives
15 and 15, non-fast gives step 5 and radius 15. -/
def legacyGenerateFine (zOnly fastMode : Bool) (center : Vec3) : List IVec3 :=
  if zOnly then gridZ center.2.2 15 5
  else if fastMode then grid3 center 15 15
  else grid3 center 15 5

/-- Bounding box metrics, mirroring the dict built by get_aabb_metrics in
src/src/core/bounding_box.py. -/
structure AabbMetrics where
  volume : ℚ
  footprint : ℚ
  width : ℚ
  depth : ℚ
  height : ℚ
  minPoint : Vec3
  maxPoint : Vec3
deriving DecidableEq, Repr

/-- Per-axis minimum of a coordinate over a point list, seeded by a first value. -/
def foldMin (f : Vec3 → ℚ) (a : ℚ) (l : List Vec3) : ℚ :=
  l.foldl (fun acc v => min acc (f v)) a

/-- Per-axis maximum of a coordinate over a point list, seeded by a first value. -/
def foldMax (f : Vec3 → ℚ) (a : ℚ) (l : List Vec3) : ℚ :=
  l.foldl (fun acc v => max acc (f v)) a

/-- get_aabb_metrics from src/src/core/bounding_box.py on a list of
world-space points: None when the object has no vertices, otherwise the
per-axis extrema reduction and the derived extents, footprint and volume. -/
def getAabbMetrics (pts : List Vec3) : Option AabbMetrics :=
  match pts with
  | [] => none
  | p :: rest =>
    let minX := foldMin (fun v => v.1) p.1 rest
    let maxX := foldMax (fun v => v.1) p.1 rest
    let minY := foldMin (fun v => v.2.1) p.2.1 rest
    let maxY := foldMax (fun v => v.2.1) p.2.1 rest
    let minZ := foldMin (fun v => v.2.2) p.2.2 rest
    let maxZ := foldMax (fun v => v.2.2) p.2.2 rest
    let width := maxX - minX
    let depth := maxY - minY
    let height := maxZ - minZ
    some
      { volume := width * depth * height
        footprint := width * depth
        width := width
        depth := depth
        height := height
        minPoint := (minX, minY, minZ)
        maxPoint := (maxX, maxY, maxZ) }

/-- get_bounding_box_volume from src/src/core/bounding_box.py: the pair of
volume and dimensions, degenerating to zeroes when there are no vertices. -/
def getBoundingBoxVolume (pts : List Vec3) : ℚ × Vec3 :=
  match getAabbMetrics pts with
  | none => (0, (0, 0, 0))
  | some m => (m.volume, (m.width, m.depth, m.height))

/-- get_bounding_box_size: the volume component alone. -/
def getBoundingBoxSize (pts : List Vec3) : ℚ :=
  (getBoundingBoxVolume pts).1

/-- The volume the geometry provider reports when the optimizer applies the
Euler triple e to a mesh whose vertices are pts: the point transform rotFn
is the external rotation action, the AABB reduction is the code of
src/src/core/bounding_box.py. -/
def measureOfCloud (rotFn : Vec3 → Vec3 → Vec3) (pts : List Vec3) (e : Vec3) : ℚ :=
  getBoundingBoxSize (pts.map (rotFn e))

/-- Mutable search state of one optimize() call: the incumbent best rotation
and volume, plus the step counter the phase helpers increment. -/
structure SearchState where
  bestRot : Vec3
  bestVol : ℚ
  stepCount : ℕ
deriving DecidableEq, Repr

/-- Wall-clock gate of each phase: the code checks the elapsed time against
max_time before entering a phase, so whether a phase runs is a function of
real time, modelled as one Boolean per phase. -/
structure Gates where
  g1 : Bool
  g2 : Bool
  g3 : Bool
  g4 : Bool
  g5 : Bool
  g6 : Bool
deriving DecidableEq, Repr

/-- Configuration bundle of the optimizer constructor: z_only flag, the
effective fast_mode flag, use_pca_initial_guess, and adaptive_steps. -/
structure OptCfg where
  zOnly : Bool
  fastMode : Bool
  usePca : Bool
  adaptiveSteps : List ℚ
deriving DecidableEq, Repr

/-- RotationOptimizer._try_rotation_offset: compose the initial rotation
matrix with the candidate matrix, convert back to Euler form, apply and
measure, and keep the candidate only on strict improvement. -/
def tryRotationOffset (measure : Vec3 → ℚ) (compose : Vec3 → Vec3 → Vec3)
    (initRot : Vec3) (st : SearchState) (cand : Vec3) : SearchState :=
  let combined := compose initRot cand
  let v := measure combined
  if v < st.bestVol then ⟨combined, v, st.stepCount + 1⟩
  else ⟨st.bestRot, st.bestVol, st.stepCount + 1⟩

/-- RotationOptimizer._try_presets_as_offset: each candidate is tried as an
offset from the initial rotation. -/
def tryOffset (measure : Vec3 → ℚ) (compose : Vec3 → Vec3 → Vec3)
    (initRot : Vec3) (st : SearchState) (cands : List Vec3) : SearchState :=
  cands.foldl (tryRotationOffset measure compose initRot) st

/-- RotationOptimizer._try_presets_absolute: each candidate is applied
directly as the final orientation, with no composition. -/
def tryAbsolute (measure : Vec3 → ℚ) (st : SearchState) (cands : List Vec3) : SearchState :=
  cands.foldl
    (fun s cand =>
      let v := measure cand
      if v < s.bestVol then ⟨cand, v, s.stepCount + 1⟩
      else ⟨s.bestRot, s.bestVol, s.stepCount + 1⟩)
    st

/-- RotationGenerator.generate_pca_variants: the base PCA rotation plus the
six single-axis 90 degree variants (pi/2 radians is 90 degrees here). -/
def generatePcaVariants (e : Vec3) : List Vec3 :=
  [e,
   (e.1 + 90, e.2.1, e.2.2),
   (e.1 - 90, e.2.1, e.2.2),
   (e.1, e.2.1 + 90, e.2.2),
   (e.1, e.2.1 - 90, e.2.2),
   (e.1, e.2.1, e.2.2 + 90),
   (e.1, e.2.1, e.2.2 - 90)]

/-- calculate_pca_rotation from src/src/optimization/pca_aligner.py, with the
numpy eigen-decomposition, orientation scoring and pitch tuning abstracted as
the backend parameter (its none models the except branch returning None):
None when numpy is unavailable, the object is not a mesh, or fewer than 3
vertices exist. -/
def calculatePcaRotation (numpyAvailable isMesh : Bool) (nVerts : ℕ)
    (backend : Option Vec3) : Option Vec3 :=
  if !numpyAvailable then none
  else if !isMesh then none
  else if nVerts < 3 then none
  else backend

/-- RotationOptimizer._try_pca_rotation: a None PCA result returns at once
leaving the state untouched; otherwise the seven variants are measured and
the best is kept on strict improvement (this loop does not touch step_count). -/
def tryPca (measure : Vec3 → ℚ) (pca : Option Vec3) (st : SearchState) : SearchState :=
  match pca with
  | none => st
  | some e =>
    (generatePcaVariants e).foldl
      (fun s r =>
        let v := measure r
        if v < s.bestVol then ⟨r, v, s.stepCount⟩ else s)
      st

/-- Numerical tolerance of the fine-tune phase (1e-9 in the source). -/
def fineTuneTol : ℚ := 1 / 1000000000

/-- Perturb one Euler component (axis 0, 1 or 2) by d degrees. -/
def perturbAxis (v : Vec3) (axis : ℕ) (d : ℚ) : Vec3 :=
  match axis with
  | 0 => (v.1 + d, v.2.1, v.2.2)
  | 1 => (v.1, v.2.1 + d, v.2.2)
  | _ => (v.1, v.2.1, v.2.2 + d)

/-- One sweep of the fine-tune inner loop: every axis of the axis list, both
directions, accepting a trial move as soon as it beats the current volume by
more than the tolerance; the flag records whether any move was accepted. -/
def fineTuneSweep (measure : Vec3 → ℚ) (axes : List ℕ) (step : ℚ)
    (s : Vec3 × ℚ × Bool) : Vec3 × ℚ × Bool :=
  (axes.flatMap fun a => [((a : ℕ), (1 : ℚ)), (a, -1)]).foldl
    (fun (s : Vec3 × ℚ × Bool) ad =>
      let test := perturbAxis s.1 ad.1 (ad.2 * step)
      let v := measure test
      if v < s.2.1 - fineTuneTol then (test, v, true) else s)
    s

/-- The while loop of _fine_tune_rotation at one step size: repeat sweeps
while the previous sweep improved and the iteration cap is not reached. -/
def fineTuneLoop (measure : Vec3 → ℚ) (axes : List ℕ) (step : ℚ) :
    ℕ → Vec3 × ℚ → Vec3 × ℚ
  | 0, s => s
  | n + 1, s =>
    let r := fineTuneSweep measure axes step (s.1, s.2, false)
    if r.2.2 then fineTuneLoop measure axes step n (r.1, r.2.1) else (r.1, r.2.1)

/-- RotationOptimizer._fine_tune_rotation: greedy coordinate descent over the
decreasing step sizes, only the Z axis in z_only mode, with the iteration cap
30 (10 in fast mode), updating the incumbent only on a strict final win. -/
def fineTune (measure : Vec3 → ℚ) (zOnly fastMode : Bool) (adaptiveSteps : List ℚ)
    (st : SearchState) : SearchState :=
  let stepSizes : List ℚ := if fastMode then [5, 1, 1/10] else adaptiveSteps
  let maxIterations : ℕ := if fastMode then 10 else 30
  let axes : List ℕ := if zOnly then [2] else [0, 1, 2]
  let r := stepSizes.foldl
    (fun (s : Vec3 × ℚ) step => fineTuneLoop measure axes step maxIterations s)
    (st.bestRot, st.bestVol)
  if r.2 < st.bestVol then ⟨r.1, r.2, st.stepCount⟩ else st

/-- RotationOptimizer.optimize from src/src/optimization/optimizer.py, up to
the final result computation: the six phases in order, each behind its time
gate, threading the search state; presets and coarse candidates go through
the offset path, medium, fine and PCA candidates through the absolute path. -/
def optimizeState (measure : Vec3 → ℚ) (compose : Vec3 → Vec3 → Vec3)
    (pca : Option Vec3) (cfg : OptCfg) (gates : Gates) (presets : List Vec3)
    (initRot : Vec3) : SearchState :=
  let initVol := measure initRot
  let st0 : SearchState := ⟨initRot, initVol, 0⟩
  let st1 := if gates.g1 && !presets.isEmpty then
      tryOffset measure compose initRot st0 (presets.take 10) else st0
  let st2 := if gates.g2 then
      tryOffset measure compose initRot st1
        ((generateCoarse cfg.zOnly cfg.fastMode).map castVec) else st1
  let st3 := if gates.g3 then
      tryAbsolute measure st2
        ((generateMedium cfg.zOnly cfg.fastMode st2.bestRot 45 15).map castVec) else st2
  let st4 := if gates.g4 then
      tryAbsolute measure st3
        ((generateFine cfg.zOnly cfg.fastMode st3.bestRot 15 5).map castVec) else st3
  let st5 := if cfg.usePca && !cfg.zOnly && gates.g5 then tryPca measure pca st4 else st4
  if gates.g6 then fineTune measure cfg.zOnly cfg.fastMode cfg.adaptiveSteps st5 else st5

/-- RotationOptimizer.optimize of the legacy monolithic src/rotation_optimizer.py:
the phase structure and helpers are line-identical to the modular pipeline,
only the candidate generators are the legacy ones. -/
def legacyOptimizeState (measure : Vec3 → ℚ) (compose : Vec3 → Vec3 → Vec3)
    (pca : Option Vec3) (cfg : OptCfg) (gates : Gates) (presets : List Vec3)
    (initRot : Vec3) : SearchState :=
  let initVol := measure initRot
  let st0 : SearchState := ⟨initRot, initVol, 0⟩
  let st1 := if gates.g1 && !presets.isEmpty then
      tryOffset measure compose initRot st0 (presets.take 10) else st0
  let st2 := if gates.g2 then
      tryOffset measure compose initRot st1
        ((legacyGenerateCoarse cfg.zOnly cfg.fastMode).map castVec) else st1
  let st3 := if gates.g3 then
      tryAbsolute measure st2
        ((legacyGenerateMedium cfg.zOnly cfg.fastMode st2.bestRot).map castVec) else st2
  let st4 := if gates.g4 then
      tryAbsolute measure st3
        ((legacyGenerateFine cfg.zOnly cfg.fastMode st3.bestRot).map castVec) else st3
  let st5 := if cfg.usePca && !cfg.zOnly && gates.g5 then tryPca measure pca st4 else st4
  if gates.g6 then fineTune measure cfg.zOnly cfg.fastMode cfg.adaptiveSteps st5 else st5

/-- Full result of optimize(): the final reduction line divides by the
initial volume, so a zero initial volume (a zero-vertex mesh) raises
ZeroDivisionError, modelled as the error case; otherwise the best rotation
in degrees and the percentage reduction are returned. -/
def optimizeRun (measure : Vec3 → ℚ) (compose : Vec3 → Vec3 → Vec3)
    (pca : Option Vec3) (cfg : OptCfg) (gates : Gates) (presets : List Vec3)
    (initRot : Vec3) : Except Unit (Vec3 × ℚ) :=
  let initVol := measure initRot
  let fin := optimizeState measure compose pca cfg gates presets initRot
  if initVol = 0 then Except.error ()
  else Except.ok (fin.bestRot, (initVol - fin.bestVol) / initVol * 100)

/-- Modelled from the claim wording of the generator contract: x lies on the
regular grid of the given step anchored at c, within radius of c (so both
endpoints c - radius and c + radius belong to it exactly when the radius is a
multiple of the step). -/
def onCenteredGrid (c radius step x : ℚ) : Prop :=
  ∃ i : ℤ, |step * (i : ℚ)| ≤ radius ∧ x = c + step * (i : ℚ)

/-- Componentwise centered-grid membership for a full Euler triple. -/
def onCenteredGrid3 (c : Vec3) (radius step : ℚ) (t : Vec3) : Prop :=
  onCenteredGrid c.1 radius step t.1 ∧ onCenteredGrid c.2.1 radius step t.2.1 ∧
    onCenteredGrid c.2.2 radius step t.2.2

/-- A rotation triple whose X and Y Euler components are zero (a pure Z
rotation in degree form). -/
def pureZ (v : Vec3) : Prop := v.1 = 0 ∧ v.2.1 = 0

/-- Nested Cartesian product of one angle list per axis, X outermost, Y
middle, Z innermost, as the claim describes the coarse candidate order. -/
def cartesianTriples (angles : List ℤ) : List IVec3 :=
  angles.flatMap fun x => angles.flatMap fun y => angles.map fun z => (x, y, z)

/-- Concrete geometry provider for counterexample runs: volume 1 at the
identity orientation, volume 2 everywhere else (any mesh whose bounding box
is strictly smallest at the identity orientation realizes such values). -/
def cexMeasure : Vec3 → ℚ := fun e => if e = (0, 0, 0) then 1 else 2

/-- Concrete composition for counterexample runs; on the inputs those runs
reach, only two facts about composition matter and both are shared with the
true matrix composition: it never produces the identity triple from a
nonidentity initial rotation here, and it maps two pure Z rotations to a
pure Z rotation. -/
def cexCompose : Vec3 → Vec3 → Vec3 :=
  fun a b => (a.1 + b.1, a.2.1 + b.2.1, a.2.2 + b.2.2)

/-- All phase gates open (the deadline never fires). -/
def allGates : Gates := ⟨true, true, true, true, true, true⟩

/-- The default adaptive_steps configuration value. -/
def defaultSteps : List ℚ := [5, 2, 1, 1/2, 1/5, 1/10]

/-- The z_only configuration with defaults otherwise. -/
def cfgZOnly : OptCfg := ⟨true, false, true, defaultSteps⟩

lemma pyInt_intCast (n : ℤ) : pyInt (n : ℚ) = n := by
  simp [pyInt]

lemma mem_pyRange_grid {c r s k : ℤ} (hs : 0 < s) (hr : r = k * s) (hk : 0 ≤ k)
    (x : ℤ) :
    x ∈ pyRange (c - r) (c + r + 1) s ↔ ∃ i : ℤ, |i| ≤ k ∧ x = c + s * i := by
  unfold pyRange
  have hlen : (c + r + 1 - (c - r) + s - 1).fdiv s = 2 * k + 1 := by
    have h : c + r + 1 - (c - r) + s - 1 = (2 * k + 1) * s := by rw [hr]; ring
    rw [h, Int.mul_fdiv_cancel _ (ne_of_gt hs)]
  rw [hlen]
  constructor
  · intro hx
    obtain ⟨m, hm, hmx⟩ := List.mem_map.mp hx
    rw [List.mem_range] at hm
    have hm2 : (m : ℤ) < 2 * k + 1 := by omega
    refine ⟨(m : ℤ) - k, by rw [abs_le]; omega, ?_⟩
    rw [← hmx, hr]; ring
  · rintro ⟨i, hi, rfl⟩
    rw [abs_le] at hi
    refine List.mem_map.mpr ⟨(i + k).toNat, List.mem_range.mpr (by omega), ?_⟩
    have hcast : (((i + k).toNat : ℕ) : ℤ) = i + k := by omega
    rw [hcast, hr]; ring

lemma pyInt_sub_intCast (c r : ℤ) : pyInt ((c : ℚ) - (r : ℤ)) = c - r := by
  have h : (c : ℚ) - ((r : ℤ) : ℚ) = ((c - r : ℤ) : ℚ) := by push_cast; ring
  rw [h, pyInt_intCast]

lemma pyInt_add_one_intCast (c r : ℤ) : pyInt ((c : ℚ) + (r : ℤ) + 1) = c + r + 1 := by
  have h : (c : ℚ) + ((r : ℤ) : ℚ) + 1 = ((c + r + 1 : ℤ) : ℚ) := by push_cast; ring
  rw [h, pyInt_intCast]

lemma mem_gridZ {cz r s k : ℤ} (hs : 0 < s) (hr : r = k * s) (hk : 0 ≤ k)
    (t : IVec3) :
    t ∈ gridZ (cz : ℚ) r s ↔ ∃ i : ℤ, |i| ≤ k ∧ t = (0, 0, cz + s * i) := by
  unfold gridZ
  rw [pyInt_sub_intCast, pyInt_add_one_intCast]
  simp only [List.mem_map]
  constructor
  · rintro ⟨z, hz, rfl⟩
    obtain ⟨i, hi, rfl⟩ := (mem_pyRange_grid hs hr hk z).mp hz
    exact ⟨i, hi, rfl⟩
  · rintro ⟨i, hi, rfl⟩
    exact ⟨cz + s * i, (mem_pyRange_grid hs hr hk _).mpr ⟨i, hi, rfl⟩, rfl⟩

lemma mem_grid3 {cx cy cz r s k : ℤ} (hs : 0 < s) (hr : r = k * s) (hk : 0 ≤ k)
    (t : IVec3) :
    t ∈ grid3 (castVec (cx, cy, cz)) r s ↔
      (∃ i : ℤ, |i| ≤ k ∧ t.1 = cx + s * i) ∧
      (∃ j : ℤ, |j| ≤ k ∧ t.2.1 = cy + s * j) ∧
      (∃ m : ℤ, |m| ≤ k ∧ t.2.2 = cz + s * m) := by
  unfold grid3 castVec
  simp only [List.mem_flatMap, List.mem_map]
  rw [pyInt_sub_intCast, pyInt_add_one_intCast, pyInt_sub_intCast,
    pyInt_add_one_intCast, pyInt_sub_intCast, pyInt_add_one_intCast]
  constructor
  · rintro ⟨x, hx, y, hy, z, hz, rfl⟩
    exact ⟨(mem_pyRange_grid hs hr hk x).mp hx, (mem_pyRange_grid hs hr hk y).mp hy,
      (mem_pyRange_grid hs hr hk z).mp hz⟩
  · rintro ⟨h1, h2, h3⟩
    obtain ⟨t1, t2, t3⟩ := t
    exact ⟨t1, (mem_pyRange_grid hs hr hk t1).mpr h1, t2,
      (mem_pyRange_grid hs hr hk t2).mpr h2, t3,
      (mem_pyRange_grid hs hr hk t3).mpr h3, rfl⟩

lemma abs_step_mul_le_iff {s k r : ℤ} (hs : 0 < s) (hr : r = k * s) (i : ℤ) :
    |(s : ℚ) * (i : ℚ)| ≤ (r : ℚ) ↔ |i| ≤ k := by
  have h1 : |(s : ℚ) * (i : ℚ)| = ((s * |i| : ℤ) : ℚ) := by
    rw [abs_mul, abs_of_pos (by exact_mod_cast hs : (0 : ℚ) < (s : ℚ))]
    push_cast
    ring
  rw [h1, hr]
  rw [Int.cast_le]
  constructor
  · intro h
    exact le_of_mul_le_mul_left (by linarith [h]) hs
  · intro h
    calc s * |i| ≤ s * k := by exact mul_le_mul_of_nonneg_left h (le_of_lt hs)
    _ = k * s := by ring

lemma onCenteredGrid_intCast_iff {c r s : ℤ} {k : ℤ} (hs : 0 < s) (hr : r = k * s)
    (x : ℚ) :
    onCenteredGrid (c : ℚ) (r : ℚ) (s : ℚ) x ↔
      ∃ i : ℤ, |i| ≤ k ∧ x = ((c + s * i : ℤ) : ℚ) := by
  unfold onCenteredGrid
  constructor
  · rintro ⟨i, hi, rfl⟩
    exact ⟨i, (abs_step_mul_le_iff hs hr i).mp hi, by push_cast; ring⟩
  · rintro ⟨i, hi, rfl⟩
    exact ⟨i, (abs_step_mul_le_iff hs hr i).mpr hi, by push_cast; ring⟩

lemma foldl_bestVol_le {α : Type} (f : SearchState → α → SearchState)
    (hf : ∀ s a, (f s a).bestVol ≤ s.bestVol) :
    ∀ (l : List α) (s : SearchState), (l.foldl f s).bestVol ≤ s.bestVol := by
  intro l
  induction l with
  | nil => intro s; simp
  | cons a l ih =>
    intro s
    simpa using le_trans (ih (f s a)) (hf s a)

lemma tryRotationOffset_bestVol_le (measure : Vec3 → ℚ) (compose : Vec3 → Vec3 → Vec3)
    (initRot : Vec3) (s : SearchState) (c : Vec3) :
    (tryRotationOffset measure compose initRot s c).bestVol ≤ s.bestVol := by
  simp only [tryRotationOffset]
  split
  · exact le_of_lt ‹_›
  · exact le_refl _

lemma tryOffset_bestVol_le (measure : Vec3 → ℚ) (compose : Vec3 → Vec3 → Vec3)
    (initRot : Vec3) (s : SearchState) (l : List Vec3) :
    (tryOffset measure compose initRot s l).bestVol ≤ s.bestVol :=
  foldl_bestVol_le _ (tryRotationOffset_bestVol_le measure compose initRot) l s

lemma tryAbsolute_bestVol_le (measure : Vec3 → ℚ) (s : SearchState) (l : List Vec3) :
    (tryAbsolute measure s l).bestVol ≤ s.bestVol := by
  refine foldl_bestVol_le _ ?_ l s
  intro s a
  dsimp only
  split
  · exact le_of_lt (by assumption)
  · exact le_refl _

lemma tryPca_bestVol_le (measure : Vec3 → ℚ) (pca : Option Vec3) (s : SearchState) :
    (tryPca measure pca s).bestVol ≤ s.bestVol := by
  unfold tryPca
  match pca with
  | none => exact le_refl _
  | some e =>
    refine foldl_bestVol_le _ ?_ _ s
    intro s a
    dsimp only
    split
    · exact le_of_lt (by assumption)
    · exact le_refl _

lemma fineTuneSweep_vol_le (measure : Vec3 → ℚ) (axes : List ℕ) (step : ℚ)
    (s : Vec3 × ℚ × Bool) : (fineTuneSweep measure axes step s).2.1 ≤ s.2.1 := by
  unfold fineTuneSweep
  generalize (axes.flatMap fun a => [((a : ℕ), (1 : ℚ)), (a, -1)]) = moves
  induction moves generalizing s with
  | nil => exact le_refl _
  | cons m l ih =>
    refine le_trans (ih _) ?_
    dsimp only
    split
    · rename_i h
      refine le_of_lt (lt_of_lt_of_le h ?_)
      have h0 : (0 : ℚ) ≤ fineTuneTol := by norm_num [fineTuneTol]
      linarith
    · exact le_refl _

lemma fineTuneLoop_vol_le (measure : Vec3 → ℚ) (axes : List ℕ) (step : ℚ) :
    ∀ (n : ℕ) (s : Vec3 × ℚ), (fineTuneLoop measure axes step n s).2 ≤ s.2 := by
  intro n
  induction n with
  | zero => intro s; exact le_refl _
  | succ n ih =>
    intro s
    rw [fineTuneLoop]
    have hsw := fineTuneSweep_vol_le measure axes step (s.1, s.2, false)
    split
    · exact le_trans (ih _) hsw
    · exact hsw

lemma fineTune_bestVol_le (measure : Vec3 → ℚ) (zOnly fastMode : Bool)
    (adaptiveSteps : List ℚ) (s : SearchState) :
    (fineTune measure zOnly fastMode adaptiveSteps s).bestVol ≤ s.bestVol := by
  simp only [fineTune]
  generalize (if fastMode = true then ([5, 1, 1/10] : List ℚ) else adaptiveSteps) = steps
  generalize (if fastMode = true then (10 : ℕ) else 30) = mi
  generalize (if zOnly = true then ([2] : List ℕ) else [0, 1, 2]) = axes
  split
  · exact le_of_lt ‹_›
  · exact le_refl _

lemma ite_vol_le {c : Prop} [Decidable c] {a b : SearchState}
    (h : a.bestVol ≤ b.bestVol) : (if c then a else b).bestVol ≤ b.bestVol := by
  split
  · exact h
  · exact le_refl _

/-- C1: for every geometry provider, rotation composition, PCA result,
configuration, phase timing, preset list and initial rotation, the best
volume tracked by optimize() never exceeds the initial volume: every phase
replaces the incumbent only by a strictly smaller measured volume. -/
theorem C1_best_volume_never_worsens (measure : Vec3 → ℚ) (compose : Vec3 → Vec3 → Vec3)
    (pca : Option Vec3) (cfg : OptCfg) (gates : Gates) (presets : List Vec3)
    (initRot : Vec3) :
    (optimizeState measure compose pca cfg gates presets initRot).bestVol ≤
      measure initRot := by
  simp only [optimizeState]
  refine le_trans (ite_vol_le (fineTune_bestVol_le _ _ _ _ _)) ?_
  refine le_trans (ite_vol_le (tryPca_bestVol_le _ _ _)) ?_
  refine le_trans (ite_vol_le (tryAbsolute_bestVol_le _ _ _)) ?_
  refine le_trans (ite_vol_le (tryAbsolute_bestVol_le _ _ _)) ?_
  refine le_trans (ite_vol_le (tryOffset_bestVol_le _ _ _ _ _)) ?_
  exact le_trans (ite_vol_le (tryOffset_bestVol_le _ _ _ _ _)) (le_refl _)

lemma legacyCoarse_eq (zOnly fastMode : Bool) :
    legacyGenerateCoarse zOnly fastMode = generateCoarse zOnly fastMode := rfl

lemma legacyFine_eq (zOnly fastMode : Bool) (c : Vec3) :
    legacyGenerateFine zOnly fastMode c = generateFine zOnly fastMode c 15 5 := by
  cases zOnly <;> cases fastMode <;> rfl

lemma legacyMedium_false_eq (fastMode : Bool) (c : Vec3) :
    legacyGenerateMedium false fastMode c = generateMedium false fastMode c 45 15 := by
  cases fastMode <;> rfl

lemma legacyOptimizeState_false_eq (measure : Vec3 → ℚ) (compose : Vec3 → Vec3 → Vec3)
    (pca : Option Vec3) (fastMode usePca : Bool) (steps : List ℚ) (gates : Gates)
    (presets : List Vec3) (initRot : Vec3) :
    legacyOptimizeState measure compose pca ⟨false, fastMode, usePca, steps⟩ gates
        presets initRot =
      optimizeState measure compose pca ⟨false, fastMode, usePca, steps⟩ gates
        presets initRot := by
  simp only [legacyOptimizeState, optimizeState, legacyCoarse_eq, legacyFine_eq,
    legacyMedium_false_eq]


lemma generateCoarse_zOnly (fastMode : Bool) :
    generateCoarse true fastMode = (pyRange 0 360 15).map (fun z => (0, 0, z)) := rfl

lemma generateMedium_zOnly (fastMode : Bool) (c : Vec3) (radius step : ℤ) :
    generateMedium true fastMode c radius step = gridZ c.2.2 radius step := rfl

lemma generateFine_zOnly (fastMode : Bool) (c : Vec3) (radius step : ℤ) :
    generateFine true fastMode c radius step = gridZ c.2.2 radius step := rfl

lemma mem_zrow_pureZ (l : List ℤ) (v : Vec3)
    (hv : v ∈ (l.map (fun z : ℤ => ((0 : ℤ), (0 : ℤ), z))).map castVec) : pureZ v := by
  obtain ⟨t, ht, rfl⟩ := List.mem_map.mp hv
  obtain ⟨z, _, rfl⟩ := List.mem_map.mp ht
  exact ⟨rfl, rfl⟩

lemma mem_gridZ_castVec_pureZ (cz : ℚ) (radius step : ℤ) (v : Vec3)
    (hv : v ∈ (gridZ cz radius step).map castVec) : pureZ v :=
  mem_zrow_pureZ _ v hv

lemma tryOffset_pureZ (measure : Vec3 → ℚ) (compose : Vec3 → Vec3 → Vec3)
    (initRot : Vec3) (l : List Vec3)
    (hcomp : ∀ a b, pureZ a → pureZ b → pureZ (compose a b))
    (hinit : pureZ initRot) (hl : ∀ c ∈ l, pureZ c) :
    ∀ (st : SearchState), pureZ st.bestRot →
      pureZ (tryOffset measure compose initRot st l).bestRot := by
  unfold tryOffset
  induction l with
  | nil => intro st hst; exact hst
  | cons c l ih =>
    intro st hst
    rw [List.foldl_cons]
    refine ih (fun d hd => hl d (List.mem_cons_of_mem _ hd)) _ ?_
    simp only [tryRotationOffset]
    split
    · exact hcomp _ _ hinit (hl c (List.mem_cons_self _ _))
    · exact hst

lemma tryAbsolute_pureZ (measure : Vec3 → ℚ) (l : List Vec3)
    (hl : ∀ c ∈ l, pureZ c) :
    ∀ (st : SearchState), pureZ st.bestRot →
      pureZ (tryAbsolute measure st l).bestRot := by
  unfold tryAbsolute
  induction l with
  | nil => intro st hst; exact hst
  | cons c l ih =>
    intro st hst
    rw [List.foldl_cons]
    refine ih (fun d hd => hl d (List.mem_cons_of_mem _ hd)) _ ?_
    dsimp only
    split
    · exact hl c (List.mem_cons_self _ _)
    · exact hst

lemma fineTuneSweep_pureZ (measure : Vec3 → ℚ) (step : ℚ) (s : Vec3 × ℚ × Bool)
    (h : pureZ s.1) : pureZ (fineTuneSweep measure [2] step s).1 := by
  unfold fineTuneSweep
  have hmoves : ([2] : List ℕ).flatMap (fun a => [((a : ℕ), (1 : ℚ)), (a, -1)]) =
      [(2, 1), (2, -1)] := rfl
  rw [hmoves]
  have hstep : ∀ (t : Vec3 × ℚ × Bool) (d : ℚ), pureZ t.1 →
      pureZ (perturbAxis t.1 2 d) := by
    intro t d ht
    exact ⟨ht.1, ht.2⟩
  dsimp only [List.foldl_cons, List.foldl_nil]
  split
  · split
    · exact hstep _ _ (hstep _ _ h)
    · exact hstep _ _ h
  · split
    · exact hstep _ _ h
    · exact h

lemma fineTuneLoop_pureZ (measure : Vec3 → ℚ) (step : ℚ) :
    ∀ (n : ℕ) (s : Vec3 × ℚ), pureZ s.1 →
      pureZ (fineTuneLoop measure [2] step n s).1 := by
  intro n
  induction n with
  | zero => intro s h; exact h
  | succ n ih =>
    intro s h
    rw [fineTuneLoop]
    have hsw := fineTuneSweep_pureZ measure step (s.1, s.2, false) h
    split
    · exact ih _ hsw
    · exact hsw

lemma fineTune_pureZ (measure : Vec3 → ℚ) (fastMode : Bool) (steps : List ℚ)
    (st : SearchState) (h : pureZ st.bestRot) :
    pureZ (fineTune measure true fastMode steps st).bestRot := by
  simp only [fineTune, if_true, eq_self_iff_true]
  generalize (if fastMode = true then ([5, 1, 1/10] : List ℚ) else steps) = stepSizes
  generalize (if fastMode = true then (10 : ℕ) else 30) = mi
  have hfold : ∀ (l : List ℚ) (s : Vec3 × ℚ), pureZ s.1 →
      pureZ ((l.foldl (fun s step => fineTuneLoop measure [2] step mi s) s).1) := by
    intro l
    induction l with
    | nil => intro s hs; exact hs
    | cons a l ih =>
      intro s hs
      rw [List.foldl_cons]
      exact ih _ (fineTuneLoop_pureZ measure a mi s hs)
  split
  · exact hfold _ _ h
  · exact h

lemma ite_pureZ {c : Prop} [Decidable c] {a b : SearchState}
    (ha : pureZ b.bestRot → pureZ a.bestRot) (hb : pureZ b.bestRot) :
    pureZ (if c then a else b).bestRot := by
  split
  · exact ha hb
  · exact hb

/-- C2 holds in the specification but not in the code: on a zero-vertex mesh
every AABB measurement is 0, so the initial volume is 0 and the final
reduction line of optimize() divides by zero and raises ZeroDivisionError
(the error case of optimizeRun) instead of returning the initial rotation
with a reduction of 0 percent. -/
theorem C2_zero_vertex_mesh_raises (rotFn : Vec3 → Vec3 → Vec3)
    (compose : Vec3 → Vec3 → Vec3) (pca : Option Vec3) (cfg : OptCfg) (gates : Gates)
    (presets : List Vec3) (initRot : Vec3) :
    optimizeRun (measureOfCloud rotFn []) compose pca cfg gates presets initRot =
      Except.error () := by
  have h0 : measureOfCloud rotFn [] initRot = 0 := rfl
  simp [optimizeRun, h0]

/-- C4: trying a candidate list as offsets is exactly trying, as absolute
orientations, the composition of the initial rotation matrix with each
candidate (converted back to Euler form): the preset and coarse phases are
the absolute path precomposed with the initial rotation, while medium, fine
and PCA candidates go through the absolute path unchanged. -/
theorem C4_offset_equals_precomposed_absolute (measure : Vec3 → ℚ)
    (compose : Vec3 → Vec3 → Vec3) (initRot : Vec3) (st : SearchState)
    (cands : List Vec3) :
    tryOffset measure compose initRot st cands =
      tryAbsolute measure st (cands.map (compose initRot)) := by
  unfold tryOffset tryAbsolute
  induction cands generalizing st with
  | nil => rfl
  | cons c l ih =>
    rw [List.map_cons, List.foldl_cons, List.foldl_cons]
    exact ih _

set_option maxRecDepth 1000000

/-- C5: generate_coarse with z_only off is the nested Cartesian product of
the per-axis angle list, X outermost, Y middle, Z innermost, already free of
duplicates: 216 triples over the six angles in normal mode and 64 triples
over the four angles in fast mode; with z_only on it is exactly the 24
triples (0, 0, 15k) for k from 0 to 23, whatever fast_mode is. -/
theorem C5_generate_coarse_shape :
    (generateCoarse false false = cartesianTriples [0, 45, -45, 90, -90, 180] ∧
      (generateCoarse false false).length = 216 ∧ (generateCoarse false false).Nodup) ∧
    (generateCoarse false true = cartesianTriples [0, 45, 90, 180] ∧
      (generateCoarse false true).length = 64 ∧ (generateCoarse false true).Nodup) ∧
    (∀ fastMode, generateCoarse true fastMode =
      (List.range 24).map (fun k => (0, 0, 15 * (k : ℤ)))) := by
  refine ⟨⟨by decide, by decide, by decide⟩, ⟨by decide, by decide, by decide⟩, ?_⟩
  intro fastMode
  cases fastMode <;> decide

lemma mem_grid3_map_castVec {cx cy cz r s k : ℤ} (hs : 0 < s) (hr : r = k * s)
    (hk : 0 ≤ k) (t : Vec3) :
    t ∈ (grid3 (castVec (cx, cy, cz)) r s).map castVec ↔
      onCenteredGrid3 (castVec (cx, cy, cz)) (r : ℚ) (s : ℚ) t := by
  obtain ⟨t1, t2, t3⟩ := t
  unfold onCenteredGrid3
  simp only [castVec]
  rw [onCenteredGrid_intCast_iff hs hr, onCenteredGrid_intCast_iff hs hr,
    onCenteredGrid_intCast_iff hs hr, List.mem_map]
  constructor
  · rintro ⟨u, hu, hcast⟩
    obtain ⟨⟨i, hi, h1⟩, ⟨j, hj, h2⟩, ⟨m, hm, h3⟩⟩ := (mem_grid3 hs hr hk u).mp hu
    obtain ⟨u1, u2, u3⟩ := u
    obtain ⟨he1, he2, he3⟩ : (u1 : ℚ) = t1 ∧ (u2 : ℚ) = t2 ∧ (u3 : ℚ) = t3 := by
      simpa [castVec, Prod.ext_iff] using hcast
    dsimp only at h1 h2 h3
    exact ⟨⟨i, hi, by rw [← he1, h1]⟩, ⟨j, hj, by rw [← he2, h2]⟩,
      ⟨m, hm, by rw [← he3, h3]⟩⟩
  · rintro ⟨⟨i, hi, h1⟩, ⟨j, hj, h2⟩, ⟨m, hm, h3⟩⟩
    refine ⟨(cx + s * i, cy + s * j, cz + s * m),
      (mem_grid3 hs hr hk _).mpr ⟨⟨i, hi, rfl⟩, ⟨j, hj, rfl⟩, ⟨m, hm, rfl⟩⟩, ?_⟩
    simp only [castVec, Prod.ext_iff]
    exact ⟨h1.symm, h2.symm, h3.symm⟩

/-- C6 (amended): for integer center triples, generate_medium and
generate_fine return exactly the regular grid of step degrees anchored at
the center within plus or minus radius on each axis, endpoints included,
with the default radius and step pairs 45/15 (medium), 30/30 (medium fast),
15/5 (fine) and 15/15 (fine fast); for non-integer centers the int()
truncation of the loop bounds shifts the grid off the center, which is what
the counterexample exhibits. -/
theorem C6_grid_exact_for_integer_centers (c : IVec3) (t : Vec3) :
    (t ∈ (generateMedium false false (castVec c) 45 15).map castVec ↔
      onCenteredGrid3 (castVec c) 45 15 t) ∧
    (t ∈ (generateMedium false true (castVec c) 45 15).map castVec ↔
      onCenteredGrid3 (castVec c) 30 30 t) ∧
    (t ∈ (generateFine false false (castVec c) 15 5).map castVec ↔
      onCenteredGrid3 (castVec c) 15 5 t) ∧
    (t ∈ (generateFine false true (castVec c) 15 5).map castVec ↔
      onCenteredGrid3 (castVec c) 15 15 t) := by
  obtain ⟨cx, cy, cz⟩ := c
  refine ⟨?_, ?_, ?_, ?_⟩
  · have h : generateMedium false false (castVec (cx, cy, cz)) 45 15 =
        grid3 (castVec (cx, cy, cz)) 45 15 := rfl
    rw [h]
    exact_mod_cast mem_grid3_map_castVec (by norm_num) (by norm_num : (45 : ℤ) = 3 * 15)
      (by norm_num) t
  · have h : generateMedium false true (castVec (cx, cy, cz)) 45 15 =
        grid3 (castVec (cx, cy, cz)) 30 30 := rfl
    rw [h]
    exact_mod_cast mem_grid3_map_castVec (by norm_num) (by norm_num : (30 : ℤ) = 1 * 30)
      (by norm_num) t
  · have h : generateFine false false (castVec (cx, cy, cz)) 15 5 =
        grid3 (castVec (cx, cy, cz)) 15 5 := rfl
    rw [h]
    exact_mod_cast mem_grid3_map_castVec (by norm_num) (by norm_num : (15 : ℤ) = 3 * 5)
      (by norm_num) t
  · have h : generateFine false true (castVec (cx, cy, cz)) 15 5 =
        grid3 (castVec (cx, cy, cz)) 15 15 := rfl
    rw [h]
    exact_mod_cast mem_grid3_map_castVec (by norm_num) (by norm_num : (15 : ℤ) = 1 * 15)
      (by norm_num) t

/-- C6 fails as stated for non-integer centers: around the center
(1/2, 0, 0) the claimed 15-degree grid within 45 degrees of the center
contains the endpoint triple (1/2 - 45, -45, -45), but generate_medium
truncates the loop bounds with int() and only ever returns integer triples,
so that grid point is missing from its output. -/
theorem C6_counterexample :
    onCenteredGrid3 ((1/2 : ℚ), 0, 0) 45 15 ((1/2 : ℚ) - 45, -45, -45) ∧
      ((1/2 : ℚ) - 45, (-45 : ℚ), (-45 : ℚ)) ∉
        (generateMedium false false ((1/2 : ℚ), 0, 0) 45 15).map castVec := by
  constructor
  · exact ⟨⟨-3, by norm_num, by norm_num⟩, ⟨-3, by norm_num, by norm_num⟩,
      ⟨-3, by norm_num, by norm_num⟩⟩
  · intro hmem
    obtain ⟨u, _, hcast⟩ := List.mem_map.mp hmem
    have h1 : ((u.1 : ℚ)) = (1/2 : ℚ) - 45 := congrArg Prod.fst hcast
    have h2 : ((2 : ℚ) * (u.1 : ℚ)) = -89 := by rw [h1]; norm_num
    have h3 : (2 * u.1 : ℤ) = -89 := by exact_mod_cast h2
    omega

/-- C7 (amended): the modular z_only medium and fine generators sweep only
the Z axis around the z component of the center with the default radius and
step of the non-z_only grids, 45/15 and 15/5, for either fast_mode value;
the legacy monolithic fine sweep agrees (15/5), but the legacy medium z_only
sweep hard-codes radius 30 instead of 45, which the counterexample shows. -/
theorem C7_z_only_sweeps (fastMode : Bool) (cx cy : ℚ) (cz : ℤ) (t : IVec3) :
    (t ∈ generateMedium true fastMode (cx, cy, (cz : ℚ)) 45 15 ↔
      ∃ i : ℤ, |i| ≤ 3 ∧ t = (0, 0, cz + 15 * i)) ∧
    (t ∈ generateFine true fastMode (cx, cy, (cz : ℚ)) 15 5 ↔
      ∃ i : ℤ, |i| ≤ 3 ∧ t = (0, 0, cz + 5 * i)) ∧
    (t ∈ legacyGenerateFine true fastMode (cx, cy, (cz : ℚ)) ↔
      ∃ i : ℤ, |i| ≤ 3 ∧ t = (0, 0, cz + 5 * i)) ∧
    (t ∈ legacyGenerateMedium true fastMode (cx, cy, (cz : ℚ)) ↔
      ∃ i : ℤ, |i| ≤ 2 ∧ t = (0, 0, cz + 15 * i)) := by
  refine ⟨?_, ?_, ?_, ?_⟩
  · have h : generateMedium true fastMode (cx, cy, (cz : ℚ)) 45 15 =
        gridZ (cz : ℚ) 45 15 := rfl
    rw [h]
    exact mem_gridZ (by norm_num) (by norm_num : (45 : ℤ) = 3 * 15) (by norm_num) t
  · have h : generateFine true fastMode (cx, cy, (cz : ℚ)) 15 5 =
        gridZ (cz : ℚ) 15 5 := rfl
    rw [h]
    exact mem_gridZ (by norm_num) (by norm_num : (15 : ℤ) = 3 * 5) (by norm_num) t
  · have h : legacyGenerateFine true fastMode (cx, cy, (cz : ℚ)) =
        gridZ (cz : ℚ) 15 5 := rfl
    rw [h]
    exact mem_gridZ (by norm_num) (by norm_num : (15 : ℤ) = 3 * 5) (by norm_num) t
  · have h : legacyGenerateMedium true fastMode (cx, cy, (cz : ℚ)) =
        gridZ (cz : ℚ) 30 15 := rfl
    rw [h]
    exact mem_gridZ (by norm_num) (by norm_num : (30 : ℤ) = 2 * 15) (by norm_num) t

/-- C7 fails as stated on the legacy implementation: around center z 0 the
claimed medium z_only sweep of 15 degree steps over plus or minus 45 degrees
contains (0, 0, -45), but the legacy medium z_only sweep only spans plus or
minus 30 degrees and omits it. -/
theorem C7_counterexample :
    (∃ i : ℤ, |i| ≤ 3 ∧ ((0 : ℤ), (0 : ℤ), (-45 : ℤ)) = (0, 0, 0 + 15 * i)) ∧
      ((0 : ℤ), (0 : ℤ), (-45 : ℤ)) ∉ legacyGenerateMedium true false ((0 : ℚ), 0, 0) := by
  constructor
  · exact ⟨-3, by norm_num, by norm_num⟩
  · with_unfolding_all decide

/-- C10 (amended): the legacy monolithic optimizer and the modular pipeline
agree on the coarse generator everywhere, on the fine generator everywhere,
on the medium generator whenever z_only is off, and their optimize phase
pipelines produce identical search states for every input whenever z_only is
off; the single divergence is the z_only medium sweep radius, 30 in the
legacy code against 45 in the modular code, shown by the counterexample. -/
theorem C10_legacy_modular_equivalence :
    (∀ zOnly fastMode, legacyGenerateCoarse zOnly fastMode =
      generateCoarse zOnly fastMode) ∧
    (∀ zOnly fastMode c, legacyGenerateFine zOnly fastMode c =
      generateFine zOnly fastMode c 15 5) ∧
    (∀ fastMode c, legacyGenerateMedium false fastMode c =
      generateMedium false fastMode c 45 15) ∧
    (∀ measure compose pca fastMode usePca steps gates presets initRot,
      legacyOptimizeState measure compose pca ⟨false, fastMode, usePca, steps⟩ gates
          presets initRot =
        optimizeState measure compose pca ⟨false, fastMode, usePca, steps⟩ gates
          presets initRot) :=
  ⟨legacyCoarse_eq, legacyFine_eq, legacyMedium_false_eq, legacyOptimizeState_false_eq⟩

/-- C10 fails as stated: in z_only mode the two medium generators differ at
the very first shared center, so the candidate lists are not identical phase
by phase. -/
theorem C10_counterexample :
    legacyGenerateMedium true false ((0 : ℚ), 0, 0) ≠
      generateMedium true false ((0 : ℚ), 0, 0) 45 15 := by
  with_unfolding_all decide

/-- C3 fails as stated: a run with z_only on, initial rotation
(90, 0, 0) degrees, no presets and a geometry provider whose volume is
strictly smallest at the identity orientation returns the rotation
(0, 0, 0), whose X component 0 differs from the initial X component 90: the
medium phase z sweep applies (0, 0, z) absolutely and overwrites X and Y. -/
theorem C3_counterexample :
    (optimizeState cexMeasure cexCompose none cfgZOnly allGates [] (90, 0, 0)).bestRot
        = ((0 : ℚ), (0 : ℚ), (0 : ℚ)) ∧ (90 : ℚ) ≠ 0 := by
  constructor
  · with_unfolding_all rfl
  · norm_num

/-- C3 (amended): with z_only on, whenever the initial rotation is a pure Z
rotation (X = Y = 0, the upright case the mode is built for), every supplied
preset is a pure Z rotation and composition maps pure Z rotations to pure Z
rotations (true of matrix composition of Z rotations), the returned rotation
has X = Y = 0, equal to the initial X and Y: coarse and preset offsets,
the medium and fine absolute Z sweeps and the Z-axis local refine all keep
the rotation pure Z, and the PCA phase is skipped. -/
theorem C3_z_only_pure_z_preserved (measure : Vec3 → ℚ) (compose : Vec3 → Vec3 → Vec3)
    (pca : Option Vec3) (cfg : OptCfg) (gates : Gates) (presets : List Vec3)
    (initRot : Vec3) (hz : cfg.zOnly = true)
    (hcomp : ∀ a b, pureZ a → pureZ b → pureZ (compose a b))
    (hpresets : ∀ p ∈ presets, pureZ p) (hinit : pureZ initRot) :
    pureZ (optimizeState measure compose pca cfg gates presets initRot).bestRot := by
  simp only [optimizeState, hz, Bool.not_true, Bool.and_false, Bool.false_and,
    Bool.false_eq_true, if_false, generateCoarse_zOnly, generateMedium_zOnly,
    generateFine_zOnly]
  refine ite_pureZ (fun h => fineTune_pureZ _ _ _ _ h) ?_
  refine ite_pureZ (fun h => tryAbsolute_pureZ _ _
    (fun c hc => mem_gridZ_castVec_pureZ _ _ _ c hc) _ h) ?_
  refine ite_pureZ (fun h => tryAbsolute_pureZ _ _
    (fun c hc => mem_gridZ_castVec_pureZ _ _ _ c hc) _ h) ?_
  refine ite_pureZ (fun h => tryOffset_pureZ _ _ _ _ hcomp hinit
    (fun c hc => mem_zrow_pureZ _ c hc) _ h) ?_
  refine ite_pureZ (fun h => tryOffset_pureZ _ _ _ _ hcomp hinit
    (fun c hc => hpresets c (List.take_subset _ _ hc)) _ h) ?_
  exact hinit

/-- Witness for the amended C3 at a concrete input. -/
theorem C3_z_only_pure_z_preserved_witness :
    pureZ (optimizeState (fun _ => (1 : ℚ)) cexCompose none cfgZOnly allGates []
      ((0 : ℚ), (0 : ℚ), (5 : ℚ))).bestRot :=
  C3_z_only_pure_z_preserved (fun _ => 1) cexCompose none cfgZOnly allGates []
    ((0 : ℚ), (0 : ℚ), (5 : ℚ)) rfl
    (fun a b ha hb => ⟨by simp [cexCompose, ha.1, hb.1], by simp [cexCompose, ha.2, hb.2]⟩)
    (fun p hp => absurd hp (List.not_mem_nil p))
    ⟨rfl, rfl⟩

lemma foldMin_le_foldMax (f : Vec3 → ℚ) :
    ∀ (l : List Vec3) (a b : ℚ), a ≤ b → foldMin f a l ≤ foldMax f b l := by
  intro l
  induction l with
  | nil => intro a b h; exact h
  | cons v l ih =>
    intro a b h
    unfold foldMin foldMax at ih ⊢
    rw [List.foldl_cons, List.foldl_cons]
    exact ih _ _ (le_trans (min_le_left _ _) (le_trans h (le_max_left _ _)))

/-- C8: on an empty point cloud get_bounding_box_volume returns the
degenerate pair of volume 0 with all extents 0 instead of failing; on any
nonempty point cloud the metrics exist, the volume is width times depth
times height, and all three extents are nonnegative. -/
theorem C8_aabb_degenerate_and_nonneg :
    getBoundingBoxVolume [] = (0, (0, 0, 0)) ∧
    ∀ (pts : List Vec3), pts ≠ [] → ∃ m, getAabbMetrics pts = some m ∧
      m.volume = m.width * m.depth * m.height ∧
      0 ≤ m.width ∧ 0 ≤ m.depth ∧ 0 ≤ m.height ∧
      getBoundingBoxVolume pts = (m.volume, (m.width, m.depth, m.height)) := by
  refine ⟨rfl, ?_⟩
  intro pts hne
  match pts with
  | [] => exact absurd rfl hne
  | p :: rest =>
    refine ⟨_, rfl, rfl, ?_, ?_, ?_, rfl⟩
    · exact sub_nonneg.mpr (foldMin_le_foldMax _ rest _ _ (le_refl _))
    · exact sub_nonneg.mpr (foldMin_le_foldMax _ rest _ _ (le_refl _))
    · exact sub_nonneg.mpr (foldMin_le_foldMax _ rest _ _ (le_refl _))

/-- Witness for C8 at a concrete two-point cloud. -/
theorem C8_aabb_witness :
    ([((0 : ℚ), (0 : ℚ), (0 : ℚ)), ((1 : ℚ), (2 : ℚ), (3 : ℚ))] : List Vec3) ≠ [] ∧
    (∃ m, getAabbMetrics [((0 : ℚ), (0 : ℚ), (0 : ℚ)), ((1 : ℚ), (2 : ℚ), (3 : ℚ))] =
        some m ∧
      m.volume = m.width * m.depth * m.height ∧
      0 ≤ m.width ∧ 0 ≤ m.depth ∧ 0 ≤ m.height ∧
      getBoundingBoxVolume [((0 : ℚ), (0 : ℚ), (0 : ℚ)), ((1 : ℚ), (2 : ℚ), (3 : ℚ))] =
        (m.volume, (m.width, m.depth, m.height))) :=
  ⟨by simp, C8_aabb_degenerate_and_nonneg.2 _ (by simp)⟩

/-- C9: the PCA aligner returns None when numpy is unavailable, when fewer
than 3 vertices are supplied, or when the eigen-decomposition backend fails,
and on a None result the PCA phase of the optimizer returns the search state
unchanged, so the surrounding optimization continues unaffected. -/
theorem C9_pca_none_and_noop (numpyAvailable isMesh : Bool) (nVerts : ℕ)
    (backend : Option Vec3) (measure : Vec3 → ℚ) (st : SearchState)
    (h : numpyAvailable = false ∨ nVerts < 3 ∨ backend = none) :
    calculatePcaRotation numpyAvailable isMesh nVerts backend = none ∧
      tryPca measure (calculatePcaRotation numpyAvailable isMesh nVerts backend) st
        = st := by
  have hnone : calculatePcaRotation numpyAvailable isMesh nVerts backend = none := by
    unfold calculatePcaRotation
    rcases h with h | h | h <;> split_ifs <;> simp_all
  exact ⟨hnone, by rw [hnone]; rfl⟩

/-- Witness for C9 at a concrete two-vertex input. -/
theorem C9_pca_witness :
    (2 : ℕ) < 3 ∧
      (calculatePcaRotation true true 2 (some (1, 2, 3)) = none ∧
        tryPca (fun _ => (0 : ℚ)) (calculatePcaRotation true true 2 (some (1, 2, 3)))
            ⟨(0, 0, 0), 5, 0⟩ = ⟨(0, 0, 0), 5, 0⟩) :=
  ⟨by norm_num, C9_pca_none_and_noop true true 2 (some (1, 2, 3)) (fun _ => 0)
    ⟨(0, 0, 0), 5, 0⟩ (Or.inr (Or.inl (by norm_num)))⟩
